import Mathlib

/-!
Verification of the QuickJS binding core of `lovejs` (`src/core/JSEngine.hpp`).

The development shallowly embeds the marshalling registry (`JSConv<T>`), the
callable wrapper (`FuncWrap`), and the engine lifecycle / execution entry
points of `JSEngine`.  The embedded QuickJS runtime itself is not part of the
repository; its narrow C ABI (value construction, coercion, evaluation,
serialization) is modelled by explicit Lean data and oracle parameters, with
exact (rational) arithmetic standing in for IEEE doubles and with NaN-producing
coercions collapsed to `0` (adequate for the success/failure and in-range
round-trip properties proved here).
-/

set_option autoImplicit false

/-- Model of a QuickJS `JSValue`: the dynamic values the runtime passes across
the C ABI.  `num` carries the exact numeric payload (`JS_TAG_INT` and
`JS_TAG_FLOAT64` unified), `arr` is a genuine JS array carrying its elements,
`obj` a plain object as a property list, and `fnVal` a function object. -/
inductive JSValue : Type where
  | undef : JSValue
  | null : JSValue
  | bool (b : Bool) : JSValue
  | num (q : ℚ) : JSValue
  | str (s : String) : JSValue
  | arr (elems : List JSValue) : JSValue
  | obj (props : List (String × JSValue)) : JSValue
  | fnVal : JSValue

/-- Runtime-side errors thrown onto the QuickJS exception channel
(`JS_ThrowTypeError`, `JS_ThrowRangeError`, `JS_ThrowReferenceError`,
`JS_ThrowInternalError`, and pending compile exceptions). -/
inductive JSErr : Type where
  | typeError (msg : String) : JSErr
  | rangeError (msg : String) : JSErr
  | refError (msg : String) : JSErr
  | internalError (msg : String) : JSErr
  | compileError (msg : String) : JSErr
  deriving DecidableEq, Repr

/-- Model of ECMAScript string-to-number coercion, simplified to non-negative
decimal integers; all NaN-producing inputs are collapsed to `0`. -/
def strToNumber (s : String) : ℚ :=
  if s = "" then 0
  else
    match s.toNat? with
    | some n => (n : ℚ)
    | none => 0

/-- Model of the runtime's `ToNumber` coercion over `JSValue` (used by
`JS_ToInt32`, `JS_ToInt64`, `JS_ToFloat64`).  NaN-producing cases (undefined,
unparseable strings, objects) are collapsed to `0`; this matches ECMAScript
`ToInt32`/`ToInt64` exactly and is adequate for the claims proved here. -/
def jsToNumber : JSValue → ℚ
  | .undef => 0
  | .null => 0
  | .bool b => if b then 1 else 0
  | .num q => q
  | .str s => strToNumber s
  | .arr _ => 0
  | .obj _ => 0
  | .fnVal => 0

/-- Truncation toward zero of a rational, as in ECMAScript `ToIntegerOrInfinity`. -/
def truncQ (q : ℚ) : Int :=
  if 0 ≤ q then Int.floor q else Int.ceil q

/-- Signed 32-bit wrap of an integer, as in ECMAScript `ToInt32`. -/
def toInt32Wrap (n : Int) : Int :=
  let m := n % 4294967296
  if m < 2147483648 then m else m - 4294967296

/-- Signed 64-bit wrap of an integer, as in ECMAScript `ToInt64`. -/
def toInt64Wrap (n : Int) : Int :=
  let m := n % 18446744073709551616
  if m < 9223372036854775808 then m else m - 18446744073709551616

/-- Model of `JS_ToInt32`: `none` would signal a thrown coercion error; on the
value kinds modelled here the coercion always succeeds (as in QuickJS, where
only exotic objects make `ToNumber` throw). -/
def jsToInt32 (v : JSValue) : Option Int :=
  some (toInt32Wrap (truncQ (jsToNumber v)))

/-- Model of `JS_ToInt64`. -/
def jsToInt64 (v : JSValue) : Option Int :=
  some (toInt64Wrap (truncQ (jsToNumber v)))

/-- Model of `JS_ToFloat64`. -/
def jsToFloat64 (v : JSValue) : Option ℚ :=
  some (jsToNumber v)

/-- Model of `JS_IsBool`. -/
def jsIsBool : JSValue → Bool
  | .bool _ => true
  | _ => false

/-- Model of `JS_ToBool` (ECMAScript truthiness); total, showing the runtime
can coerce every value kind to a boolean. -/
def jsToBool : JSValue → Bool
  | .undef => false
  | .null => false
  | .bool b => b
  | .num q => if q = 0 then false else true
  | .str s => if s = "" then false else true
  | .arr _ => true
  | .obj _ => true
  | .fnVal => true

/-- Model of `JS_ToCString` (ECMAScript `ToString`); array rendering is
simplified to a comma join of the element renderings. -/
def jsToString : JSValue → String
  | .undef => "undefined"
  | .null => "null"
  | .bool b => if b then "true" else "false"
  | .num q => toString q
  | .str s => s
  | .arr elems => String.intercalate "," (elems.attach.map fun e => jsToString e.1)
  | .obj _ => "[object Object]"
  | .fnVal => "function"
decreasing_by
  simp only [JSValue.arr.sizeOf_spec]
  have h := List.sizeOf_lt_of_mem e.2
  omega

/-- Model of `JS_IsArray`. -/
def jsIsArray : JSValue → Bool
  | .arr _ => true
  | _ => false

/-! ## The marshalling registry: `JSConv<T>` specializations -/

/-- Translation of `JSConv<int>::from` (`JS_ToInt32`, failure sets `ok = false`). -/
def intFrom (v : JSValue) : Option Int :=
  match jsToInt32 v with
  | some r => some r
  | none => none

/-- Translation of `JSConv<int>::to` (`JS_NewInt32`). -/
def intTo (v : Int) : JSValue := .num (v : ℚ)

/-- Translation of `JSConv<int64_t>::from` (`JS_ToInt64`). -/
def int64From (v : JSValue) : Option Int :=
  match jsToInt64 v with
  | some r => some r
  | none => none

/-- Translation of `JSConv<int64_t>::to` (`JS_NewInt64`); the runtime payload
is modelled exactly. -/
def int64To (v : Int) : JSValue := .num (v : ℚ)

/-- Translation of `JSConv<double>::from` (`JS_ToFloat64`). -/
def doubleFrom (v : JSValue) : Option ℚ :=
  match jsToFloat64 v with
  | some r => some r
  | none => none

/-- Translation of `JSConv<double>::to` (`JS_NewFloat64`); native doubles are
modelled as exact rationals. -/
def doubleTo (v : ℚ) : JSValue := .num v

/-- Translation of `JSConv<float>::from` (`JS_ToFloat64` followed by
`static_cast<float>`; the narrowing cast is exact on every double that came
from a float, so it is modelled as the identity). -/
def floatFrom (v : JSValue) : Option ℚ :=
  match jsToFloat64 v with
  | some r => some r
  | none => none

/-- Translation of `JSConv<float>::to` (`JS_NewFloat64` on the widened value;
the float-to-double widening is exact). -/
def floatTo (v : ℚ) : JSValue := .num v

/-- Translation of `JSConv<bool>::from`: fails unless the value is exactly a
JS boolean (`JS_IsBool` check before `JS_ToBool`). -/
def boolFrom (v : JSValue) : Option Bool :=
  if jsIsBool v then some (jsToBool v) else none

/-- Translation of `JSConv<bool>::to` (`JS_NewBool`). -/
def boolTo (v : Bool) : JSValue := .bool v

/-- Translation of `JSConv<std::string>::from` (`JS_ToCString`; in the model
the rendering never returns a null pointer). -/
def stringFrom (v : JSValue) : Option String :=
  some (jsToString v)

/-- Translation of `JSConv<std::string>::to` (`JS_NewString`). -/
def stringTo (v : String) : JSValue := .str v

/-- Translation of `JSConv<std::vector<T>>::MAX_ARRAY_LENGTH`. -/
def MAX_ARRAY_LENGTH : Int := 1000000

/-- Format of the range error thrown by `JSConv<std::vector<T>>::from` when
the reported length exceeds the cap
(`"array length %lld exceeds maximum %lld"`). -/
def mkLenErrMsg (len : Int) : String :=
  s!"array length {len} exceeds maximum {MAX_ARRAY_LENGTH}"

/-- Format of the type error thrown by `JSConv<std::vector<T>>::from` when
element `i` fails to convert
(`"array element at index %lld conversion failed"`). -/
def mkElemErrMsg (i : Nat) : String :=
  s!"array element at index {i} conversion failed"

/-- Result of `JSConv<std::vector<T>>::from`: the returned vector, the `ok`
flag, and the exception thrown onto the runtime channel (if any). -/
structure SeqFromResult (α : Type) : Type where
  val : List α
  ok : Bool
  thrown : Option JSErr
  deriving Repr

/-- Translation of the element loop of `JSConv<std::vector<T>>::from`:
converts elements positionally starting at index `i`, reporting the index of
the first element whose conversion fails. -/
def vecFromLoop {α : Type} (elemFrom : JSValue → Option α) :
    List JSValue → Nat → Except Nat (List α)
  | [], _ => .ok []
  | e :: rest, i =>
    match elemFrom e with
    | none => .error i
    | some x =>
      match vecFromLoop elemFrom rest (i + 1) with
      | .error j => .error j
      | .ok xs => .ok (x :: xs)

/-- Translation of `JSConv<std::vector<T>>::from`: array-shape check, length
read (a genuine array's `length` property is its element count), length cap,
then the positional element loop; every failure path returns the empty
vector. -/
def vecFrom {α : Type} (elemFrom : JSValue → Option α) (v : JSValue) :
    SeqFromResult α :=
  match v with
  | .arr elems =>
    let len : Int := (elems.length : Int)
    if len > MAX_ARRAY_LENGTH then
      ⟨[], false, some (.rangeError (mkLenErrMsg len))⟩
    else
      match vecFromLoop elemFrom elems 0 with
      | .error i => ⟨[], false, some (.typeError (mkElemErrMsg i))⟩
      | .ok xs => ⟨xs, true, none⟩
  | _ => ⟨[], false, some (.typeError "expected array")⟩

/-- Translation of `JSConv<std::vector<T>>::to` (`JS_NewArray` plus
`JS_SetPropertyUint32` per element; element `to`-conversions never throw in
the model). -/
def vecTo {α : Type} (elemTo : α → JSValue) (xs : List α) : JSValue :=
  .arr (xs.map elemTo)

/-! ## The callable wrapper: `FuncWrap` -/

/-- Universe of native values crossing the boundary (the instantiations of the
`JSConv` registry: `int`, `int64_t`, `double`, `float`, `bool`, `std::string`,
`std::vector<T>`). -/
inductive NativeVal : Type where
  | i32 (n : Int) : NativeVal
  | i64 (n : Int) : NativeVal
  | dbl (q : ℚ) : NativeVal
  | flt (q : ℚ) : NativeVal
  | bl (b : Bool) : NativeVal
  | st (s : String) : NativeVal
  | vec (elems : List NativeVal) : NativeVal

/-- Type-directed dispatch of the registry's `to`-conversions
(`JSConv<T>::to` for each supported `T`). -/
def nativeToJS : NativeVal → JSValue
  | .i32 n => intTo n
  | .i64 n => int64To n
  | .dbl q => doubleTo q
  | .flt q => floatTo q
  | .bl b => boolTo b
  | .st s => stringTo s
  | .vec elems => .arr (elems.attach.map fun e => nativeToJS e.1)
decreasing_by
  simp only [NativeVal.vec.sizeOf_spec]
  have h := List.sizeOf_lt_of_mem e.2
  omega

/-- Observable events of one `FuncWrap::call`: each attempted argument
conversion (by position) and each invocation of the wrapped native function
(with the converted arguments it received). -/
inductive CallEvent : Type where
  | convAttempt (i : Nat) : CallEvent
  | invoke (args : List NativeVal) : CallEvent

/-- Shallow embedding of `FuncWrap<Ret, Args...>`: one `from`-converter per
declared parameter (in order), the wrapped native function, whether `Ret` is
`void`, and the registry's `to`-conversion for `Ret`. -/
structure FuncWrap : Type where
  argConvs : List (JSValue → Option NativeVal)
  fn : List NativeVal → NativeVal
  retVoid : Bool
  retTo : NativeVal → JSValue

/-- Arity of the wrapper (`FuncWrap::arity`, i.e. `sizeof...(Args)`). -/
def FuncWrap.arity (w : FuncWrap) : Nat := w.argConvs.length

/-- Translation of `unpack_impl` / `unpackArgs`: converts arguments
left-to-right (the fold over `std::index_sequence`), short-circuiting at the
first failed conversion, and records each attempted conversion as an event. -/
def unpackArgsGo : Nat → List ((JSValue → Option NativeVal) × JSValue) →
    Option (List NativeVal) × List CallEvent
  | _, [] => (some [], [])
  | i, (conv, v) :: rest =>
    match conv v with
    | none => (none, [.convAttempt i])
    | some x =>
      let (r, evs) := unpackArgsGo (i + 1) rest
      (r.map (x :: ·), .convAttempt i :: evs)

/-- Translation of `unpackArgs<Args...>`. -/
def unpackArgs (convs : List (JSValue → Option NativeVal)) (args : List JSValue) :
    Option (List NativeVal) × List CallEvent :=
  unpackArgsGo 0 (convs.zip args)

/-- Format of the arity error thrown by `FuncWrap::call`
(`"expected exactly %d arguments, got %d"`). -/
def mkArityErrMsg (expected actual : Nat) : String :=
  s!"expected exactly {expected} arguments, got {actual}"

/-- Translation of `FuncWrap::call`: arity check first, then argument
unpacking, then at most one invocation of the native function; a `void`
return yields `JS_UNDEFINED`, otherwise the return value is converted via
`JSConv<Ret>::to`. -/
def FuncWrap.call (w : FuncWrap) (args : List JSValue) :
    Except JSErr JSValue × List CallEvent :=
  let expected := w.argConvs.length
  if args.length ≠ expected then
    (.error (.typeError (mkArityErrMsg expected args.length)), [])
  else
    match unpackArgs w.argConvs args with
    | (none, evs) => (.error (.typeError "argument type conversion failed"), evs)
    | (some vals, evs) =>
      if w.retVoid then
        (.ok .undef, evs ++ [.invoke vals])
      else
        (.ok (w.retTo (w.fn vals)), evs ++ [.invoke vals])

/-- The invocation trace of a call: the argument tuples the native function
actually received, in order. -/
def invocations (evs : List CallEvent) : List (List NativeVal) :=
  evs.filterMap fun e =>
    match e with
    | .invoke a => some a
    | _ => none

/-- Specification predicate: the converter list maps the argument list
pointwise (and successfully) to the native value list. -/
inductive ConvertsTo : List (JSValue → Option NativeVal) → List JSValue →
    List NativeVal → Prop where
  | nil : ConvertsTo [] [] []
  | cons {conv : JSValue → Option NativeVal}
      {cs : List (JSValue → Option NativeVal)} {v : JSValue} {vs : List JSValue}
      {x : NativeVal} {xs : List NativeVal} :
      conv v = some x → ConvertsTo cs vs xs →
      ConvertsTo (conv :: cs) (v :: vs) (x :: xs)

/-! ## Supporting lemmas -/

/-- Successful pointwise conversion determines the unpacking fold: every
argument conversion is attempted in order and the converted tuple is
produced. -/
theorem unpackArgsGo_of_convertsTo
    {convs : List (JSValue → Option NativeVal)} {args : List JSValue}
    {vals : List NativeVal} (h : ConvertsTo convs args vals) :
    ∀ k : Nat, unpackArgsGo k (convs.zip args) =
      (some vals, (List.range' k convs.length).map CallEvent.convAttempt) := by
  induction h with
  | nil => intro k; rfl
  | cons hc _ ih =>
    intro k
    have ih' := ih (k + 1)
    simp only [List.zip, List.zipWith_cons_cons, unpackArgsGo, hc] at ih' ⊢
    rw [ih']
    simp [List.range']

/-- The unpacking fold never records an invocation event. -/
theorem invocations_unpackArgsGo :
    ∀ (l : List ((JSValue → Option NativeVal) × JSValue)) (k : Nat),
      invocations (unpackArgsGo k l).2 = [] := by
  intro l
  induction l with
  | nil => intro k; rfl
  | cons p rest ih =>
    intro k
    obtain ⟨conv, v⟩ := p
    simp only [unpackArgsGo]
    cases hc : conv v with
    | none => simp [invocations]
    | some x =>
      have := ih (k + 1)
      cases hrec : unpackArgsGo (k + 1) rest with
      | mk r evs =>
        rw [hrec] at this
        simpa [invocations] using this

/-- Converse of `unpackArgsGo_of_convertsTo`: a successful unpacking of
equally long lists certifies pointwise conversion. -/
theorem convertsTo_of_unpackArgsGo :
    ∀ (convs : List (JSValue → Option NativeVal)) (args : List JSValue)
      (k : Nat) (vals : List NativeVal) (evs : List CallEvent),
      convs.length = args.length →
      unpackArgsGo k (convs.zip args) = (some vals, evs) →
      ConvertsTo convs args vals := by
  intro convs
  induction convs with
  | nil =>
    intro args k vals evs hlen h
    cases args with
    | nil =>
      simp only [List.zip_nil_right, unpackArgsGo, Prod.mk.injEq] at h
      obtain ⟨h1, _⟩ := h
      cases h1
      exact .nil
    | cons v vs => simp at hlen
  | cons conv cs ih =>
    intro args k vals evs hlen h
    cases args with
    | nil => simp at hlen
    | cons v vs =>
      simp only [List.zip, List.zipWith_cons_cons, unpackArgsGo] at h
      cases hc : conv v with
      | none => simp only [hc] at h; simp at h
      | some x =>
        simp only [hc] at h
        cases hrec : unpackArgsGo (k + 1) (List.zipWith Prod.mk cs vs) with
        | mk r evs2 =>
          rw [hrec] at h
          cases r with
          | none => simp at h
          | some tail =>
            simp only [Option.map_some', Prod.mk.injEq] at h
            obtain ⟨h1, _⟩ := h
            cases h1
            refine .cons hc (ih vs (k + 1) tail evs2 (by simpa using hlen) ?_)
            simpa [List.zip] using hrec

/-- The element loop succeeds on an elementwise round-trippable mapped list. -/
theorem vecFromLoop_roundtrip {α : Type} (ef : JSValue → Option α) (et : α → JSValue) :
    ∀ (l : List α) (k : Nat), (∀ x ∈ l, ef (et x) = some x) →
      vecFromLoop ef (l.map et) k = .ok l := by
  intro l
  induction l with
  | nil => intro k _; rfl
  | cons a as ih =>
    intro k h
    have ha : ef (et a) = some a := h a (by simp)
    have hrest := ih (k + 1) (fun x hx => h x (by simp [hx]))
    simp only [List.map_cons, vecFromLoop, ha, hrest]

/-- The element loop stops at the first failing element, reporting its
position. -/
theorem vecFromLoop_first_failure {α : Type} (ef : JSValue → Option α) :
    ∀ (pre : List JSValue) (e : JSValue) (rest : List JSValue) (k : Nat),
      (∀ x ∈ pre, (ef x).isSome = true) → ef e = none →
      vecFromLoop ef (pre ++ e :: rest) k = .error (k + pre.length) := by
  intro pre
  induction pre with
  | nil =>
    intro e rest k _ he
    simp [vecFromLoop, he]
  | cons p ps ih =>
    intro e rest k hpre he
    obtain ⟨x, hx⟩ := Option.isSome_iff_exists.mp (hpre p (by simp))
    have hrest := ih e rest (k + 1) (fun y hy => hpre y (by simp [hy])) he
    simp only [List.cons_append, vecFromLoop, hx, List.append_eq, hrest,
      List.length_cons]
    congr 1
    omega

/-- Truncation toward zero is the identity on integer-valued rationals. -/
theorem truncQ_intCast (v : Int) : truncQ (v : ℚ) = v := by
  unfold truncQ
  rcases le_or_lt 0 (v : ℚ) with h | h
  · rw [if_pos h, Int.floor_intCast]
  · rw [if_neg (not_le.mpr h), Int.ceil_intCast]

/-- The 32-bit signed wrap is the identity on in-range integers. -/
theorem toInt32Wrap_id (v : Int) (h1 : -2147483648 ≤ v) (h2 : v < 2147483648) :
    toInt32Wrap v = v := by
  unfold toInt32Wrap
  dsimp only
  split <;> omega

/-- The 64-bit signed wrap is the identity on in-range integers. -/
theorem toInt64Wrap_id (v : Int) (h1 : -9223372036854775808 ≤ v)
    (h2 : v < 9223372036854775808) : toInt64Wrap v = v := by
  unfold toInt64Wrap
  dsimp only
  split <;> omega

/-! ## Claims about the marshalling registry and the callable wrapper -/

/-- C1: a call to a wrapped native function of fixed arity `N` with exactly
`N` arguments converts the arguments left-to-right; if all conversions
succeed the native function is invoked exactly once, with the converted
arguments, strictly after every conversion event, and a `void` return yields
`JS_UNDEFINED` while any other return is converted back through the
registry's `to`-conversion; if any argument fails to convert the native
function is never invoked. -/
theorem c1_call_invokes_once (w : FuncWrap) (args : List JSValue)
    (hlen : args.length = w.argConvs.length) :
    (∀ vals : List NativeVal, ConvertsTo w.argConvs args vals →
      w.call args =
        (.ok (if w.retVoid then JSValue.undef else w.retTo (w.fn vals)),
          (List.range w.argConvs.length).map CallEvent.convAttempt ++
            [CallEvent.invoke vals])) ∧
    ((∀ vals : List NativeVal, ¬ ConvertsTo w.argConvs args vals) →
      (w.call args).1 = .error (.typeError "argument type conversion failed") ∧
        invocations (w.call args).2 = []) := by
  constructor
  · intro vals hconv
    have hunpack := unpackArgsGo_of_convertsTo hconv 0
    unfold FuncWrap.call unpackArgs
    rw [if_neg (by simpa using hlen), hunpack]
    have hr : List.range' 0 w.argConvs.length = List.range w.argConvs.length := by
      simpa using (List.range_eq_range' w.argConvs.length).symm
    rw [hr]
    dsimp only
    split <;> rfl
  · intro hnone
    unfold FuncWrap.call unpackArgs
    rw [if_neg (by simpa using hlen)]
    cases hres : unpackArgsGo 0 (w.argConvs.zip args) with
    | mk r evs =>
      cases r with
      | none =>
        have hinv := invocations_unpackArgsGo (w.argConvs.zip args) 0
        rw [hres] at hinv
        simpa using hinv
      | some vals =>
        exact absurd (convertsTo_of_unpackArgsGo w.argConvs args 0 vals evs
          hlen.symm hres) (hnone vals)

/-- Example wrapper used by concrete witnesses: a binary native function
taking an `int` and a `bool`, returning an `int`. -/
def exW : FuncWrap where
  argConvs := [fun v => (intFrom v).map NativeVal.i32,
               fun v => (boolFrom v).map NativeVal.bl]
  fn := fun _ => .i32 42
  retVoid := false
  retTo := nativeToJS

/-- Witness for C1: calling the example wrapper with `(3, true)` converts
both arguments, invokes the native function exactly once, and returns the
converted result; calling it with `(3, 7)` (second argument not a boolean)
fails and never invokes the native function. -/
theorem c1_call_invokes_once_witness :
    (exW.call [JSValue.num 3, JSValue.bool true] =
      (.ok (if exW.retVoid then JSValue.undef
            else exW.retTo (exW.fn [NativeVal.i32 3, NativeVal.bl true])),
        (List.range exW.argConvs.length).map CallEvent.convAttempt ++
          [CallEvent.invoke [NativeVal.i32 3, NativeVal.bl true]])) ∧
    ((exW.call [JSValue.num 3, JSValue.num 7]).1 =
        .error (.typeError "argument type conversion failed") ∧
      invocations (exW.call [JSValue.num 3, JSValue.num 7]).2 = []) := by
  constructor
  · exact (c1_call_invokes_once exW [JSValue.num 3, JSValue.bool true] rfl).1
      [NativeVal.i32 3, NativeVal.bl true]
      (.cons rfl (.cons rfl .nil))
  · refine (c1_call_invokes_once exW [JSValue.num 3, JSValue.num 7] rfl).2 ?_
    intro vals h
    cases h with
    | cons h1 h2 =>
      cases h2 with
      | cons h3 h4 => simp [boolFrom, jsIsBool] at h3

/-- C2: a call with `M ≠ N` arguments fails immediately with the arity
error naming the expected count `N` and the actual count `M`; no conversion
is attempted and the native function is never invoked (the event trace is
empty). -/
theorem c2_arity_mismatch (w : FuncWrap) (args : List JSValue)
    (h : args.length ≠ w.argConvs.length) :
    w.call args =
      (.error (.typeError (mkArityErrMsg w.argConvs.length args.length)), []) := by
  unfold FuncWrap.call
  rw [if_pos h]

/-- Witness for C2: calling the binary example wrapper with one argument
yields the arity error naming 2 (expected) and 1 (got), with an empty event
trace; the message spells out both counts. -/
theorem c2_arity_mismatch_witness :
    exW.call [JSValue.num 1] =
      (.error (.typeError (mkArityErrMsg exW.argConvs.length 1)), []) ∧
    mkArityErrMsg exW.argConvs.length 1 = "expected exactly 2 arguments, got 1" :=
  ⟨c2_arity_mismatch exW [JSValue.num 1] (by decide), rfl⟩

/-- C3: sequence `from`-conversion fails on non-arrays with the shape type
error; fails with the distinguished range error whenever the reported length
exceeds 1,000,000; and on the first failing element it fails with the
per-index type error, discarding all previously converted elements and
returning the empty vector. -/
theorem c3_sequence_from (α : Type) (ef : JSValue → Option α) :
    (∀ v : JSValue, (∀ elems : List JSValue, v ≠ .arr elems) →
      vecFrom ef v = ⟨[], false, some (.typeError "expected array")⟩) ∧
    (∀ elems : List JSValue, MAX_ARRAY_LENGTH < (elems.length : Int) →
      vecFrom ef (.arr elems) =
        ⟨[], false, some (.rangeError (mkLenErrMsg (elems.length : Int)))⟩) ∧
    (∀ (pre : List JSValue) (e : JSValue) (rest : List JSValue),
      (((pre ++ e :: rest).length : Int)) ≤ MAX_ARRAY_LENGTH →
      (∀ x ∈ pre, (ef x).isSome = true) → ef e = none →
      vecFrom ef (.arr (pre ++ e :: rest)) =
        ⟨[], false, some (.typeError (mkElemErrMsg pre.length))⟩) := by
  refine ⟨?_, ?_, ?_⟩
  · intro v hv
    cases v <;> first | rfl | exact absurd rfl (hv _)
  · intro elems hlen
    unfold vecFrom
    dsimp only
    rw [if_pos hlen]
  · intro pre e rest hcap hpre he
    have hloop := vecFromLoop_first_failure ef pre e rest 0 hpre he
    unfold vecFrom
    dsimp only
    rw [if_neg (not_lt.mpr hcap), hloop]
    simp

/-- Witness for C3: a non-array value, an over-long array, and an array whose
second element fails boolean conversion, each produce the claimed failures. -/
theorem c3_sequence_from_witness :
    vecFrom boolFrom (JSValue.num 0) =
      ⟨[], false, some (.typeError "expected array")⟩ ∧
    vecFrom boolFrom (.arr (List.replicate 1000001 JSValue.undef)) =
      ⟨[], false, some (.rangeError
        (mkLenErrMsg ((List.replicate 1000001 JSValue.undef).length : Int)))⟩ ∧
    vecFrom boolFrom (.arr ([JSValue.bool true] ++ JSValue.num 0 :: [])) =
      ⟨[], false, some (.typeError (mkElemErrMsg 1))⟩ := by
  refine ⟨(c3_sequence_from Bool boolFrom).1 (JSValue.num 0)
      (fun _ h => JSValue.noConfusion h),
    (c3_sequence_from Bool boolFrom).2.1 (List.replicate 1000001 JSValue.undef)
      (by rw [List.length_replicate]; decide),
    ?_⟩
  have h := (c3_sequence_from Bool boolFrom).2.2 [JSValue.bool true]
    (JSValue.num 0) [] (by simp [MAX_ARRAY_LENGTH]) (by decide) (by decide)
  simpa using h

/-- C4: every supported scalar round-trips through the runtime (`int` and
`int64_t` on their native ranges, doubles and floats on exact values,
booleans and strings everywhere), and every sequence of length at most
1,000,000 whose elements round-trip converts to a runtime array and back to
the same elements in the same order. -/
theorem c4_roundtrip :
    (∀ v : Int, -2147483648 ≤ v → v < 2147483648 → intFrom (intTo v) = some v) ∧
    (∀ v : Int, -9223372036854775808 ≤ v → v < 9223372036854775808 →
      int64From (int64To v) = some v) ∧
    (∀ q : ℚ, doubleFrom (doubleTo q) = some q) ∧
    (∀ q : ℚ, floatFrom (floatTo q) = some q) ∧
    (∀ b : Bool, boolFrom (boolTo b) = some b) ∧
    (∀ s : String, stringFrom (stringTo s) = some s) ∧
    (∀ (α : Type) (et : α → JSValue) (ef : JSValue → Option α) (l : List α),
      (∀ x ∈ l, ef (et x) = some x) → (l.length : Int) ≤ MAX_ARRAY_LENGTH →
      vecFrom ef (vecTo et l) = ⟨l, true, none⟩) := by
  refine ⟨?_, ?_, fun q => rfl, fun q => rfl, fun b => rfl,
    fun s => by simp [stringFrom, stringTo, jsToString], ?_⟩
  · intro v h1 h2
    show some (toInt32Wrap (truncQ (jsToNumber (.num (v : ℚ))))) = some v
    rw [show jsToNumber (.num (v : ℚ)) = (v : ℚ) from rfl, truncQ_intCast,
      toInt32Wrap_id v h1 h2]
  · intro v h1 h2
    show some (toInt64Wrap (truncQ (jsToNumber (.num (v : ℚ))))) = some v
    rw [show jsToNumber (.num (v : ℚ)) = (v : ℚ) from rfl, truncQ_intCast,
      toInt64Wrap_id v h1 h2]
  · intro α et ef l h hcap
    have hloop := vecFromLoop_roundtrip ef et l 0 h
    unfold vecFrom vecTo
    dsimp only
    rw [List.length_map, if_neg (not_lt.mpr hcap), hloop]

/-- Witness for C4: concrete scalar round-trips for every supported type and
a concrete three-element integer sequence round-trip. -/
theorem c4_roundtrip_witness :
    intFrom (intTo 5) = some 5 ∧
    int64From (int64To (-7)) = some (-7) ∧
    doubleFrom (doubleTo (1 / 2)) = some (1 / 2) ∧
    floatFrom (floatTo (3 / 4)) = some (3 / 4) ∧
    boolFrom (boolTo true) = some true ∧
    stringFrom (stringTo "hi") = some "hi" ∧
    vecFrom intFrom (vecTo intTo [1, 2, 3]) = ⟨[1, 2, 3], true, none⟩ := by
  refine ⟨c4_roundtrip.1 5 (by decide) (by decide),
    c4_roundtrip.2.1 (-7) (by decide) (by decide),
    c4_roundtrip.2.2.1 (1 / 2),
    c4_roundtrip.2.2.2.1 (3 / 4),
    c4_roundtrip.2.2.2.2.1 true,
    c4_roundtrip.2.2.2.2.2.1 "hi",
    c4_roundtrip.2.2.2.2.2.2 Int intTo intFrom [1, 2, 3] ?_ (by decide)⟩
  intro x hx
  fin_cases hx <;> exact c4_roundtrip.1 _ (by decide) (by decide)

/-- C10: the boolean `from`-conversion succeeds exactly on JS booleans and
fails on every other value kind (number, string, object, null, undefined)
even though the runtime's own boolean coercion is total on them — unlike the
numeric and string `from`-conversions, which succeed on every value the
runtime can coerce. -/
theorem c10_bool_from_strict :
    (∀ v : JSValue, (boolFrom v).isSome = true ↔ ∃ b : Bool, v = .bool b) ∧
    (boolFrom (.num 1) = none ∧ boolFrom (.str "x") = none ∧
      boolFrom (.obj []) = none ∧ boolFrom .null = none ∧
      boolFrom .undef = none) ∧
    (jsToBool (.num 1) = true ∧ jsToBool (.str "x") = true ∧
      jsToBool (.obj []) = true ∧ jsToBool .null = false ∧
      jsToBool .undef = false) ∧
    ((intFrom (.num 1)).isSome = true ∧ (intFrom (.str "x")).isSome = true ∧
      (intFrom (.obj [])).isSome = true ∧ (intFrom .null).isSome = true ∧
      (intFrom .undef).isSome = true ∧ (intFrom (.bool true)).isSome = true ∧
      (doubleFrom (.str "x")).isSome = true ∧ (doubleFrom .null).isSome = true ∧
      (stringFrom (.num 1)).isSome = true ∧ (stringFrom (.obj [])).isSome = true ∧
      (stringFrom .null).isSome = true ∧ (stringFrom .undef).isSome = true) := by
  refine ⟨?_, ⟨rfl, rfl, rfl, rfl, rfl⟩, ⟨by decide, by decide, rfl, rfl, rfl⟩,
    rfl, rfl, rfl, rfl, rfl, rfl, rfl, rfl, rfl, rfl, rfl, rfl⟩
  intro v
  cases v <;> simp [boolFrom, jsIsBool]

/-! ## The engine: module tree, lifecycle state, and execution entry points -/

/-- Translation of `JSModule`: one namespace level, holding the node name,
the owned child nodes (each carrying its own name, as `module(name)` creates
`JSModule(name, this)`), the registered function wrappers, and the registered
value producers.  A value producer captures its constant by value and applies
`JSConv<T>::to` at install time, so it is modelled by the captured native
value (the `to`-conversion is applied at install/export sites). -/
inductive JSModule : Type where
  | mk (name : String) (children : List JSModule)
      (funcs : List (String × FuncWrap)) (values : List (String × NativeVal))

/-- Name of a module node (`JSModule::name`). -/
def JSModule.name : JSModule → String
  | .mk n _ _ _ => n

/-- Child nodes of a module node (`JSModule::children_`). -/
def JSModule.children : JSModule → List JSModule
  | .mk _ c _ _ => c

/-- Registered functions of a module node (`JSModule::funcs_`). -/
def JSModule.funcs : JSModule → List (String × FuncWrap)
  | .mk _ _ f _ => f

/-- Registered values of a module node (`JSModule::values_`). -/
def JSModule.values : JSModule → List (String × NativeVal)
  | .mk _ _ _ v => v

/-- Which runtime/context pair an operation on the QuickJS C ABI targets:
the shared process-wide pair or a disposable pair private to one `compile`
call. -/
inductive RtTarget : Type where
  | shared : RtTarget
  | disposable : RtTarget
  deriving DecidableEq, Repr

/-- Trace alphabet: the QuickJS C-ABI operations (and the engine's own cache
resets) performed by an entry point, in order. -/
inductive RtOp : Type where
  | newRuntime (t : RtTarget) : RtOp
  | newContext (t : RtTarget) : RtOp
  | newClass (t : RtTarget) : RtOp
  | setRuntimeData (t : RtTarget) : RtOp
  | setModuleLoader (t : RtTarget) : RtOp
  | runGC (t : RtTarget) : RtOp
  | freeContext (t : RtTarget) : RtOp
  | freeRuntime (t : RtTarget) : RtOp
  | evalSrc (t : RtTarget) (file : String) (compileOnly : Bool) : RtOp
  | readObject (t : RtTarget) : RtOp
  | resolveModule (t : RtTarget) : RtOp
  | evalFunction (t : RtTarget) : RtOp
  | getModuleNamespace (t : RtTarget) : RtOp
  | getGlobal (t : RtTarget) : RtOp
  | getProp (t : RtTarget) (name : String) : RtOp
  | callFunction (t : RtTarget) : RtOp
  | setProp (t : RtTarget) (name : String) : RtOp
  | writeObject (t : RtTarget) : RtOp
  | newCModule (t : RtTarget) (name : String) : RtOp
  | addModuleExport (t : RtTarget) (name : String) : RtOp
  | readFile (path : String) : RtOp
  | clearCaches : RtOp
  | resetRoot : RtOp
  deriving DecidableEq, Repr

/-- Whether an operation touches the shared process-wide runtime/context. -/
def RtOp.isShared : RtOp → Bool
  | .newRuntime t => t == .shared
  | .newContext t => t == .shared
  | .newClass t => t == .shared
  | .setRuntimeData t => t == .shared
  | .setModuleLoader t => t == .shared
  | .runGC t => t == .shared
  | .freeContext t => t == .shared
  | .freeRuntime t => t == .shared
  | .evalSrc t _ _ => t == .shared
  | .readObject t => t == .shared
  | .resolveModule t => t == .shared
  | .evalFunction t => t == .shared
  | .getModuleNamespace t => t == .shared
  | .getGlobal t => t == .shared
  | .getProp t _ => t == .shared
  | .callFunction t => t == .shared
  | .setProp t _ => t == .shared
  | .writeObject t => t == .shared
  | .newCModule t _ => t == .shared
  | .addModuleExport t _ => t == .shared
  | .readFile _ => false
  | .clearCaches => false
  | .resetRoot => false

/-- Runtime-side record of a native module definition created by
`JS_NewCModule` plus its declared exports (`JS_AddModuleExport`). -/
structure ModuleRecord : Type where
  name : String
  exports : List String
  deriving DecidableEq, Repr

/-- The process-wide engine state: the static members of `JSEngine` (`rt_`,
`ctx_`, `global_`, `installed_`, `modData_`, `jsModuleCache_`, `cleanedUp_`,
the shared `g_funcClassId`) together with the modelled runtime-side state
reachable through the shared context (the JS global object's properties and
the registry of created module definitions) and a fresh-handle counter
standing in for runtime pointer identity. -/
structure EngineState : Type where
  rt : Bool
  ctx : Bool
  globalMod : Option JSModule
  installed : Bool
  modData : List (Nat × JSModule)
  jsModuleCache : List (String × Nat)
  cleanedUp : Bool
  funcClassId : Nat
  globalObj : List (String × JSValue)
  moduleDefs : List (Nat × ModuleRecord)
  nextHandle : Nat

/-- The state before any engine call. -/
def initialState : EngineState where
  rt := false
  ctx := false
  globalMod := none
  installed := false
  modData := []
  jsModuleCache := []
  cleanedUp := false
  funcClassId := 0
  globalObj := []
  moduleDefs := []
  nextHandle := 0

/-- Association-list lookup (model of map/property lookup). -/
def lookupAssoc {κ β : Type} [DecidableEq κ] : List (κ × β) → κ → Option β
  | [], _ => none
  | (k, v) :: rest, key => if k = key then some v else lookupAssoc rest key

/-- Property write on an object (model of `JS_SetProperty`): overwrite the
existing binding or append a fresh one. -/
def setProp : List (String × JSValue) → String → JSValue → List (String × JSValue)
  | [], n, v => [(n, v)]
  | (m, w) :: rest, n, v =>
    if m = n then (n, v) :: rest else (m, w) :: setProp rest n v

/-- Sequential property writes, in list order. -/
def setProps (g : List (String × JSValue)) (l : List (String × JSValue)) :
    List (String × JSValue) :=
  l.foldl (fun acc p => setProp acc p.1 p.2) g

/-- Translation of `installChildModule`: the properties a module node
contributes to a plain JS object — its functions (as runtime function
objects), its values (via the registry's `to`-conversion), and its child
nodes as recursively populated nested plain objects. -/
def installChildProps : JSModule → List (String × JSValue)
  | .mk _ cs fs vs =>
    fs.map (fun p => (p.1, JSValue.fnVal)) ++
    vs.map (fun p => (p.1, nativeToJS p.2)) ++
    cs.attach.map (fun c => (c.1.name, JSValue.obj (installChildProps c.1)))
decreasing_by
  simp only [JSModule.mk.sizeOf_spec]
  have h := List.sizeOf_lt_of_mem c.2
  omega

/-- Translation of `installToObject` (the eager global install): same
contribution shape as `installChildModule`, applied to the root node. -/
def installToObjectEntries (m : JSModule) : List (String × JSValue) :=
  m.funcs.map (fun p => (p.1, JSValue.fnVal)) ++
  m.values.map (fun p => (p.1, nativeToJS p.2)) ++
  m.children.map (fun c => (c.name, JSValue.obj (installChildProps c)))

/-- Default root module (`global()` creates `JSModule("global", nullptr)`
on first use; `ensureInstalled` dereferences it). -/
def defaultRootModule : JSModule := .mk "global" [] [] []

/-- Translation of `ensureInstalled`: on the first evaluation, graft the
entire root module tree onto the runtime's global object and latch the
`installed_` flag. -/
def ensureInstalled (s : EngineState) : EngineState × List RtOp :=
  if s.installed then (s, [])
  else
    let m := s.globalMod.getD defaultRootModule
    let entries := installToObjectEntries m
    ({ s with installed := true, globalObj := setProps s.globalObj entries },
      RtOp.getGlobal .shared :: entries.map (fun p => RtOp.setProp .shared p.1))

/-- A unit deserialized from bytecode by `JS_ReadObject`: either a module
(whose namespace, after evaluation, binds the given export names to values)
or a plain function. -/
inductive DeserUnit : Type where
  | moduleUnit (exports : List (String × JSValue)) : DeserUnit
  | funcUnit : DeserUnit

/-- Oracle for the behaviour of the opaque QuickJS runtime: evaluation of
source modules, calls into script functions, bytecode deserialization,
module-graph resolution, evaluation of deserialized units, declaration-only
compilation on the shared runtime, and compile-only evaluation plus bytecode
serialization on a disposable runtime.  Modelled from the spec: the runtime
is an external collaborator behind a fixed narrow C ABI. -/
structure QuickJS : Type where
  evalModule : String → String → Except String Unit
  callFn : String → List JSValue → Except String JSValue
  readObj : List Nat → Except String DeserUnit
  resolveOk : DeserUnit → Bool
  evalFnRes : DeserUnit → Except String Unit
  compileModuleShared : String → String → Except String Unit
  compileDisposable : String → String → Except String Unit
  writeDisposable : String → String → Option (List Nat)

/-- Outcome of one execution entry point: the returned success flag, the
state afterwards, the trace of runtime operations performed, and the
diagnostics written to the error sink / `stderr`. -/
structure EPResult : Type where
  ok : Bool
  state : EngineState
  tr : List RtOp
  diag : List String

/-- Diagnostic printed by `callGlobal` after cleanup. -/
def cleanedUpCallMsg : String :=
  "Error: JSEngine has been cleaned up, cannot call JS functions"

/-- Diagnostic printed by `runFile` / `runBytecode` after cleanup. -/
def cleanedUpMsg : String := "Error: JSEngine has been cleaned up"

/-- Model of `JS_IsFunction` on a property lookup result (an absent property
reads as `undefined`, which is not a function). -/
def isFunctionVal : Option JSValue → Bool
  | some .fnVal => true
  | _ => false

/-- Translation of `JSEngine::initialize`: a no-op once a runtime exists
(the guard checks only `rt_`); otherwise construct the shared runtime and
context, register the function-wrapper class (allocating the process-wide
class identifier on first use), and install the module loader. -/
def initializeEngine (s : EngineState) : EngineState × List RtOp :=
  if s.rt then (s, [])
  else
    ({ s with
        rt := true
        ctx := true
        funcClassId := if s.funcClassId = 0 then 1 else s.funcClassId },
      [.newRuntime .shared, .newContext .shared, .newClass .shared,
        .setRuntimeData .shared, .setModuleLoader .shared])

/-- Translation of `JSEngine::cleanup`: a no-op when neither context nor
runtime exists; otherwise latch the terminal flag, drop the cached module
handles, collect garbage (when both context and runtime exist), free the
context, free the runtime, and reset the root module, in that order.  The
runtime-side state (`globalObj`, `moduleDefs`) perishes with the runtime. -/
def cleanup (s : EngineState) : EngineState × List RtOp :=
  if !s.ctx && !s.rt then (s, [])
  else
    ({ s with
        cleanedUp := true
        modData := []
        jsModuleCache := []
        ctx := false
        rt := false
        globalMod := none
        globalObj := []
        moduleDefs := [] },
      [RtOp.clearCaches] ++
        (if s.ctx && s.rt then [RtOp.runGC .shared] else []) ++
        (if s.ctx then [RtOp.freeContext .shared] else []) ++
        (if s.rt then [RtOp.freeRuntime .shared] else []) ++
        [RtOp.resetRoot])

/-- Translation of `JSEngine::callGlobal`: guard on the terminal flag and a
live context first; then look up the named global, require it to be a
function (silent failure otherwise), convert every argument through the
registry, call, and route any thrown exception to the error sink. -/
def callGlobal (Q : QuickJS) (s : EngineState) (name : String)
    (args : List NativeVal) : EPResult :=
  if s.cleanedUp || !s.ctx then
    ⟨false, s, [], [cleanedUpCallMsg]⟩
  else
    let tr0 := [RtOp.getGlobal .shared, RtOp.getProp .shared name]
    if isFunctionVal (lookupAssoc s.globalObj name) then
      match Q.callFn name (args.map nativeToJS) with
      | .ok _ => ⟨true, s, tr0 ++ [RtOp.callFunction .shared], []⟩
      | .error e => ⟨false, s, tr0 ++ [RtOp.callFunction .shared], ["Error: " ++ e]⟩
    else
      ⟨false, s, tr0, []⟩

/-- Translation of the private `JSEngine::eval`: ensure the global install,
then evaluate the text as an ES module, routing exceptions to the sink. -/
def eval (Q : QuickJS) (s : EngineState) (code file : String) : EPResult :=
  let (s1, t1) := ensureInstalled s
  match Q.evalModule code file with
  | .ok _ => ⟨true, s1, t1 ++ [RtOp.evalSrc .shared file false], []⟩
  | .error e => ⟨false, s1, t1 ++ [RtOp.evalSrc .shared file false], ["Error: " ++ e]⟩

/-- Translation of `JSEngine::runFile(path)`: guard, read the file, then
evaluate its contents as a module. -/
def runFile (fs : String → Option String) (Q : QuickJS) (s : EngineState)
    (path : String) : EPResult :=
  if s.cleanedUp || !s.ctx then
    ⟨false, s, [], [cleanedUpMsg]⟩
  else
    match fs path with
    | none => ⟨false, s, [RtOp.readFile path], ["Cannot open: " ++ path]⟩
    | some code =>
      let r := eval Q s code path
      ⟨r.ok, r.state, RtOp.readFile path :: r.tr, r.diag⟩

/-- Translation of `JSEngine::runFile(name, code)` (inline overload). -/
def runFileInline (Q : QuickJS) (s : EngineState) (name code : String) :
    EPResult :=
  if s.cleanedUp || !s.ctx then
    ⟨false, s, [], [cleanedUpMsg]⟩
  else
    eval Q s code name

/-- Translation of `JSEngine::registerModuleExportsToGlobal`: enumerate the
module namespace's own enumerable string properties dynamically and bind
each one onto the global object. -/
def registerModuleExportsToGlobal (g : List (String × JSValue))
    (moduleNS : List (String × JSValue)) :
    List (String × JSValue) × List RtOp :=
  (setProps g moduleNS,
    RtOp.getGlobal .shared :: moduleNS.map (fun p => RtOp.setProp .shared p.1))

/-- Translation of `JSEngine::runBytecode`: guard, ensure the global
install, deserialize against the shared runtime, detect module vs plain
function, resolve the dependency graph only for modules, evaluate, and for
modules copy every exported name onto the global object. -/
def runBytecode (Q : QuickJS) (s : EngineState) (bytes : List Nat) : EPResult :=
  if s.cleanedUp || !s.ctx then
    ⟨false, s, [], [cleanedUpMsg]⟩
  else
    let (s1, t1) := ensureInstalled s
    let t2 := t1 ++ [RtOp.readObject .shared]
    match Q.readObj bytes with
    | .error e => ⟨false, s1, t2, ["Error: Failed to read bytecode", "Error: " ++ e]⟩
    | .ok u =>
      match u with
      | .moduleUnit exports =>
        if !Q.resolveOk u then
          ⟨false, s1, t2 ++ [RtOp.resolveModule .shared],
            ["Error: Failed to resolve module"]⟩
        else
          match Q.evalFnRes u with
          | .error e =>
            ⟨false, s1,
              t2 ++ [RtOp.resolveModule .shared, RtOp.evalFunction .shared],
              ["Error: Failed to evaluate bytecode", "Error: " ++ e]⟩
          | .ok _ =>
            let (g2, t3) := registerModuleExportsToGlobal s1.globalObj exports
            ⟨true, { s1 with globalObj := g2 },
              t2 ++ [RtOp.resolveModule .shared, RtOp.evalFunction .shared,
                RtOp.getModuleNamespace .shared] ++ t3,
              []⟩
      | .funcUnit =>
        match Q.evalFnRes u with
        | .error e =>
          ⟨false, s1, t2 ++ [RtOp.evalFunction .shared],
            ["Error: Failed to evaluate bytecode", "Error: " ++ e]⟩
        | .ok _ => ⟨true, s1, t2 ++ [RtOp.evalFunction .shared], []⟩

/-- Translation of `JSEngine::CompileResult`. -/
structure CompileResult : Type where
  success : Bool
  error : String
  bytecode : List Nat

/-- Rendering of the exception captured on the compile-error path
(`JS_ToCString` of the pending exception; modelled from the spec: a
compile-only evaluation failure is a syntax-error object whose string
rendering carries the error-name prefix). -/
def renderCompileError (m : String) : String := "SyntaxError: " ++ m

/-- Translation of `JSEngine::compile`: construct a private disposable
runtime and context, install the stub module loader, compile the source
without executing, serialize the compiled unit, and free the disposable
context and runtime on every path; the shared engine state is never read or
written. -/
def compile (Q : QuickJS) (s : EngineState) (code filename : String) :
    CompileResult × EngineState × List RtOp :=
  let tr0 := [RtOp.newRuntime .disposable, RtOp.newContext .disposable,
    RtOp.setModuleLoader .disposable, RtOp.evalSrc .disposable filename true]
  match Q.compileDisposable code filename with
  | .error m =>
    (⟨false, renderCompileError m, []⟩, s,
      tr0 ++ [RtOp.freeContext .disposable, RtOp.freeRuntime .disposable])
  | .ok _ =>
    match Q.writeDisposable code filename with
    | none =>
      (⟨false, "Failed to serialize bytecode", []⟩, s,
        tr0 ++ [RtOp.writeObject .disposable, RtOp.freeContext .disposable,
          RtOp.freeRuntime .disposable])
    | some bytes =>
      (⟨true, "", bytes⟩, s,
        tr0 ++ [RtOp.writeObject .disposable, RtOp.freeContext .disposable,
          RtOp.freeRuntime .disposable])

/-- Translation of `JSEngine::findModule`: look the import name up among the
top-level children of the root module tree. -/
def findModule (s : EngineState) (name : String) : Option JSModule :=
  match s.globalMod with
  | none => none
  | some g => g.children.find? (fun c => c.name == name)

/-- Export-name surface of a native module definition: every function name,
value name, and child name (the three `JS_AddModuleExport` loops of
`createCppModule`). -/
def exportNames (m : JSModule) : List String :=
  m.funcs.map (fun p => p.1) ++ m.values.map (fun p => p.1) ++
    m.children.map (fun c => c.name)

/-- Translation of `JSEngine::createCppModule`: create a native module
definition for the node, record the handle-to-node mapping, and declare
every function, value, and child name as an export. -/
def createCppModule (s : EngineState) (name : String) (mod : JSModule) :
    Nat × EngineState × List RtOp :=
  let h := s.nextHandle
  (h,
    { s with
        nextHandle := h + 1
        modData := (h, mod) :: s.modData
        moduleDefs := (h, ⟨name, exportNames mod⟩) :: s.moduleDefs },
    RtOp.newCModule .shared name ::
      (exportNames mod).map (RtOp.addModuleExport .shared))

/-- Boolean sublist-containment test on character lists. -/
def containsSublist (pat : List Char) : List Char → Bool
  | [] => pat.isEmpty
  | c :: rest => pat.isPrefixOf (c :: rest) || containsSublist pat rest

/-- Whether the import name contains the substring `".js"` (the source's
extension test is `path.find(".js") == std::string::npos`, a containment
check, not a suffix check). -/
def containsJsSubstr (name : String) : Bool :=
  containsSublist ".js".toList name.toList

/-- Result of the module-resolution hook: the module handle or the thrown
resolution error, the state afterwards, and the operation trace. -/
structure LMResult : Type where
  res : Except JSErr Nat
  state : EngineState
  tr : List RtOp

/-- Translation of `JSEngine::loadModule` (the live module-resolution hook):
guard on the terminal flag; then try the native module tree, then the
compiled-module cache (keyed by the unmodified import name), then the
filesystem (appending `".js"` when absent), compiling declaration-only and
caching on success; an unopenable file is a module-not-found error. -/
def loadModule (fs : String → Option String) (Q : QuickJS) (s : EngineState)
    (name : String) : LMResult :=
  if s.cleanedUp then
    ⟨.error (.internalError "JSEngine has been cleaned up"), s, []⟩
  else
    match findModule s name with
    | some m =>
      let (h, s1, tr) := createCppModule s name m
      ⟨.ok h, s1, tr⟩
    | none =>
      match lookupAssoc s.jsModuleCache name with
      | some h => ⟨.ok h, s, []⟩
      | none =>
        let path := if containsJsSubstr name then name else name ++ ".js"
        match fs path with
        | none => ⟨.error (.refError ("module not found: " ++ name)), s,
            [RtOp.readFile path]⟩
        | some code =>
          match Q.compileModuleShared code name with
          | .error e => ⟨.error (.compileError e), s,
              [RtOp.readFile path, RtOp.evalSrc .shared name true]⟩
          | .ok _ =>
            let h := s.nextHandle
            ⟨.ok h,
              { s with
                  nextHandle := h + 1
                  jsModuleCache := (name, h) :: s.jsModuleCache },
              [RtOp.readFile path, RtOp.evalSrc .shared name true]⟩

/-- One call to any of the execution/call entry points, for reasoning about
arbitrary post-cleanup call sequences. -/
inductive EntryCall : Type where
  | cg (name : String) (args : List NativeVal) : EntryCall
  | rf (path : String) : EntryCall
  | rfi (name code : String) : EntryCall
  | rb (bytes : List Nat) : EntryCall

/-- Dispatch one entry call. -/
def runEntry (fs : String → Option String) (Q : QuickJS) (s : EngineState) :
    EntryCall → EPResult
  | .cg n a => callGlobal Q s n a
  | .rf p => runFile fs Q s p
  | .rfi n c => runFileInline Q s n c
  | .rb b => runBytecode Q s b

/-- Run a sequence of entry calls, threading the state. -/
def runEntries (fs : String → Option String) (Q : QuickJS) :
    EngineState → List EntryCall → List EPResult
  | _, [] => []
  | s, c :: cs =>
    let r := runEntry fs Q s c
    r :: runEntries fs Q r.state cs

/-- Unfolding lemma: sequential writes over a cons. -/
theorem setProps_cons (g : List (String × JSValue)) (a : String × JSValue)
    (rest : List (String × JSValue)) :
    setProps g (a :: rest) = setProps (setProp g a.1 a.2) rest := rfl

/-- Writing a property makes it readable. -/
theorem lookupAssoc_setProp_self (g : List (String × JSValue)) (n : String)
    (v : JSValue) : lookupAssoc (setProp g n v) n = some v := by
  induction g with
  | nil => simp [setProp, lookupAssoc]
  | cons p rest ih =>
    obtain ⟨m, w⟩ := p
    by_cases h : m = n
    · simp [setProp, h, lookupAssoc]
    · simp [setProp, h, lookupAssoc, ih]

/-- Writing one property never erases another. -/
theorem lookupAssoc_setProp_isSome (g : List (String × JSValue))
    (n m : String) (v : JSValue) (h : (lookupAssoc g n).isSome = true) :
    (lookupAssoc (setProp g m v) n).isSome = true := by
  induction g with
  | nil => simp [lookupAssoc] at h
  | cons p rest ih =>
    obtain ⟨k, w⟩ := p
    simp only [lookupAssoc] at h
    simp only [setProp]
    by_cases hkm : k = m
    · rw [if_pos hkm]
      simp only [lookupAssoc]
      by_cases hmn : m = n
      · rw [if_pos hmn]; rfl
      · rw [if_neg hmn]
        rw [if_neg (by rw [hkm]; exact hmn)] at h
        exact h
    · rw [if_neg hkm]
      simp only [lookupAssoc]
      by_cases hkn : k = n
      · rw [if_pos hkn]; rfl
      · rw [if_neg hkn]
        rw [if_neg hkn] at h
        exact ih h

/-- Sequential writes never erase a readable property. -/
theorem setProps_preserves_isSome :
    ∀ (l : List (String × JSValue)) (g : List (String × JSValue)) (n : String),
      (lookupAssoc g n).isSome = true →
      (lookupAssoc (setProps g l) n).isSome = true := by
  intro l
  induction l with
  | nil => intro g n h; simpa [setProps] using h
  | cons a rest ih =>
    intro g n h
    rw [setProps_cons]
    exact ih _ n (lookupAssoc_setProp_isSome g n a.1 a.2 h)

/-- After writing a whole export list, every listed name is readable. -/
theorem setProps_covers :
    ∀ (l : List (String × JSValue)) (g : List (String × JSValue))
      (p : String × JSValue), p ∈ l →
      (lookupAssoc (setProps g l) p.1).isSome = true := by
  intro l
  induction l with
  | nil => intro g p h; cases h
  | cons a rest ih =>
    intro g p h
    rw [setProps_cons]
    rcases List.mem_cons.mp h with rfl | hmem
    · exact setProps_preserves_isSome rest _ p.1
        (by rw [lookupAssoc_setProp_self]; rfl)
    · exact ih _ p hmem

/-! ## Claims about the engine lifecycle and execution entry points -/

/-- C5: once the terminal cleaned-up flag is set, every execution and call
entry point (`callGlobal`, both `runFile` overloads, `runBytecode`) fails
immediately with its diagnostic, performs no runtime operation, and leaves
the state untouched — hence any sequence of subsequent calls, of any length,
fails the same way. -/
theorem c5_post_cleanup_entry_points (fs : String → Option String)
    (Q : QuickJS) (s : EngineState) (h : s.cleanedUp = true) :
    (∀ (n : String) (a : List NativeVal),
      callGlobal Q s n a = ⟨false, s, [], [cleanedUpCallMsg]⟩) ∧
    (∀ p : String, runFile fs Q s p = ⟨false, s, [], [cleanedUpMsg]⟩) ∧
    (∀ n c : String, runFileInline Q s n c = ⟨false, s, [], [cleanedUpMsg]⟩) ∧
    (∀ b : List Nat, runBytecode Q s b = ⟨false, s, [], [cleanedUpMsg]⟩) ∧
    (∀ calls : List EntryCall, ∀ r ∈ runEntries fs Q s calls,
      r.ok = false ∧ r.state = s ∧ r.tr = []) := by
  have hg : (s.cleanedUp || !s.ctx) = true := by rw [h]; rfl
  have hcg : ∀ (n : String) (a : List NativeVal),
      callGlobal Q s n a = ⟨false, s, [], [cleanedUpCallMsg]⟩ := by
    intro n a; unfold callGlobal; rw [if_pos hg]
  have hrf : ∀ p : String, runFile fs Q s p = ⟨false, s, [], [cleanedUpMsg]⟩ := by
    intro p; unfold runFile; rw [if_pos hg]
  have hrfi : ∀ n c : String,
      runFileInline Q s n c = ⟨false, s, [], [cleanedUpMsg]⟩ := by
    intro n c; unfold runFileInline; rw [if_pos hg]
  have hrb : ∀ b : List Nat,
      runBytecode Q s b = ⟨false, s, [], [cleanedUpMsg]⟩ := by
    intro b; unfold runBytecode; rw [if_pos hg]
  refine ⟨hcg, hrf, hrfi, hrb, ?_⟩
  intro calls
  induction calls with
  | nil => intro r hr; cases hr
  | cons c cs ih =>
    intro r hr
    have hc : (runEntry fs Q s c).ok = false ∧ (runEntry fs Q s c).state = s ∧
        (runEntry fs Q s c).tr = [] := by
      cases c with
      | cg n a => simp only [runEntry]; rw [hcg n a]; exact ⟨rfl, rfl, rfl⟩
      | rf p => simp only [runEntry]; rw [hrf p]; exact ⟨rfl, rfl, rfl⟩
      | rfi n c => simp only [runEntry]; rw [hrfi n c]; exact ⟨rfl, rfl, rfl⟩
      | rb b => simp only [runEntry]; rw [hrb b]; exact ⟨rfl, rfl, rfl⟩
    simp only [runEntries] at hr
    rcases List.mem_cons.mp hr with rfl | hmem
    · exact hc
    · rw [hc.2.1] at hmem
      exact ih r hmem

/-- Oracle whose runtime operations all succeed trivially; used by the
concrete witnesses. -/
def trivialQuickJS : QuickJS where
  evalModule := fun _ _ => .ok ()
  callFn := fun _ _ => .ok .undef
  readObj := fun _ => .ok .funcUnit
  resolveOk := fun _ => true
  evalFnRes := fun _ => .ok ()
  compileModuleShared := fun _ _ => .ok ()
  compileDisposable := fun _ _ => .ok ()
  writeDisposable := fun _ _ => some []

/-- Witness for C5: after a real `initialize(); cleanup();` run, the cleaned
state refuses a `callGlobal` and a `runBytecode` with no operations and no
state change. -/
theorem c5_post_cleanup_entry_points_witness :
    (cleanup (initializeEngine initialState).1).1.cleanedUp = true ∧
    callGlobal trivialQuickJS (cleanup (initializeEngine initialState).1).1
        "update" [] =
      ⟨false, (cleanup (initializeEngine initialState).1).1, [],
        [cleanedUpCallMsg]⟩ ∧
    runBytecode trivialQuickJS (cleanup (initializeEngine initialState).1).1
        [0] =
      ⟨false, (cleanup (initializeEngine initialState).1).1, [],
        [cleanedUpMsg]⟩ := by
  refine ⟨rfl, ?_, ?_⟩
  · exact (c5_post_cleanup_entry_points (fun _ => none) trivialQuickJS _
      rfl).1 "update" []
  · exact (c5_post_cleanup_entry_points (fun _ => none) trivialQuickJS _
      rfl).2.2.2.1 [0]

/-- Counterexample to C6 as stated: after `initialize(); cleanup();` the
guard of `initialize` (which checks only whether a runtime exists, not the
terminal flag) passes again, so a further `initialize()` does construct a
fresh runtime and context even though the engine has been cleaned up. -/
theorem c6_reinit_counterexample :
    RtOp.newRuntime .shared ∈
      (initializeEngine (cleanup (initializeEngine initialState).1).1).2 ∧
    RtOp.newContext .shared ∈
      (initializeEngine (cleanup (initializeEngine initialState).1).1).2 ∧
    (initializeEngine (cleanup (initializeEngine initialState).1).1).1.rt = true ∧
    (initializeEngine (cleanup (initializeEngine initialState).1).1).1.ctx = true ∧
    (cleanup (initializeEngine initialState).1).1.cleanedUp = true := by
  refine ⟨?_, ?_, rfl, rfl, rfl⟩ <;> decide

/-- C6 (amended): `initialize` constructs the runtime and context exactly
once per lifetime of a runtime and is an idempotent no-op while one exists;
`cleanup` tears down in the fixed order (drop cached module handles, collect
garbage, free context, free runtime, reset root module) and is idempotent;
but after cleanup a subsequent `initialize` does construct a fresh
runtime/context pair (its guard checks only `rt_`) — amended part — while
the terminal flag survives it, so every execution entry point still
refuses. -/
theorem c6_lifecycle_amended (Q : QuickJS) :
    (∀ s : EngineState, s.rt = true → initializeEngine s = (s, [])) ∧
    (∀ s : EngineState, s.rt = false →
      (initializeEngine s).1.rt = true ∧ (initializeEngine s).1.ctx = true ∧
      (initializeEngine s).2 =
        [.newRuntime .shared, .newContext .shared, .newClass .shared,
          .setRuntimeData .shared, .setModuleLoader .shared] ∧
      initializeEngine (initializeEngine s).1 = ((initializeEngine s).1, [])) ∧
    (∀ s : EngineState, s.ctx = true → s.rt = true →
      cleanup s =
        ({ s with
            cleanedUp := true
            modData := []
            jsModuleCache := []
            ctx := false
            rt := false
            globalMod := none
            globalObj := []
            moduleDefs := [] },
          [RtOp.clearCaches, RtOp.runGC .shared, RtOp.freeContext .shared,
            RtOp.freeRuntime .shared, RtOp.resetRoot])) ∧
    (∀ s : EngineState, cleanup (cleanup s).1 = ((cleanup s).1, [])) ∧
    (∀ s : EngineState, s.cleanedUp = true →
      (initializeEngine s).1.cleanedUp = true ∧
      (∀ (n : String) (a : List NativeVal),
        (callGlobal Q (initializeEngine s).1 n a).ok = false) ∧
      (∀ b : List Nat, (runBytecode Q (initializeEngine s).1 b).ok = false)) := by
  refine ⟨?_, ?_, ?_, ?_, ?_⟩
  · intro s h
    unfold initializeEngine
    rw [if_pos h]
  · intro s h
    simp [initializeEngine, h]
  · intro s h1 h2
    unfold cleanup
    simp [h1, h2]
  · intro s
    cases hc : s.ctx <;> cases hr : s.rt <;> simp [cleanup, hc, hr]
  · intro s h
    have hcl : (initializeEngine s).1.cleanedUp = true := by
      cases hr : s.rt <;> simp [initializeEngine, hr, h]
    refine ⟨hcl, ?_, ?_⟩
    · intro n a
      unfold callGlobal
      rw [if_pos (by rw [hcl]; rfl)]
    · intro b
      unfold runBytecode
      rw [if_pos (by rw [hcl]; rfl)]

/-- Witness for the amended C6: concrete idempotence of `initialize` and
`cleanup`, the fixed cleanup order, and a refused `callGlobal` after the
post-cleanup re-initialization. -/
theorem c6_lifecycle_amended_witness :
    initializeEngine (initializeEngine initialState).1 =
      ((initializeEngine initialState).1, []) ∧
    (cleanup (initializeEngine initialState).1).2 =
      [RtOp.clearCaches, RtOp.runGC .shared, RtOp.freeContext .shared,
        RtOp.freeRuntime .shared, RtOp.resetRoot] ∧
    cleanup (cleanup (initializeEngine initialState).1).1 =
      ((cleanup (initializeEngine initialState).1).1, []) ∧
    (callGlobal trivialQuickJS
        (initializeEngine (cleanup (initializeEngine initialState).1).1).1
        "update" []).ok = false := by
  refine ⟨((c6_lifecycle_amended trivialQuickJS).2.1 initialState rfl).2.2.2,
    ?_,
    (c6_lifecycle_amended trivialQuickJS).2.2.2.1 (initializeEngine initialState).1,
    ((c6_lifecycle_amended trivialQuickJS).2.2.2.2
      (cleanup (initializeEngine initialState).1).1 rfl).2.1 "update" []⟩
  have h := (c6_lifecycle_amended trivialQuickJS).2.2.1
    (initializeEngine initialState).1 rfl rfl
  rw [h]

/-- The rendered compile exception is never the empty string. -/
theorem renderCompileError_ne_empty (m : String) : renderCompileError m ≠ "" := by
  intro h
  have hlen := congrArg String.length h
  rw [renderCompileError, String.length_append] at hlen
  have h13 : ("SyntaxError: " : String).length = 13 := rfl
  have h0 : ("" : String).length = 0 := rfl
  rw [h13, h0] at hlen
  omega

/-- C7: `compile` leaves the shared engine state untouched on every path,
performs no operation on the shared runtime (it creates its own disposable
runtime/context pair), always frees the disposable context and then the
disposable runtime as its last two operations, and on failure carries a
non-empty error message. -/
theorem c7_compile_isolated (Q : QuickJS) (s : EngineState)
    (code filename : String) :
    (compile Q s code filename).2.1 = s ∧
    (∀ op ∈ (compile Q s code filename).2.2, op.isShared = false) ∧
    RtOp.newRuntime .disposable ∈ (compile Q s code filename).2.2 ∧
    RtOp.newContext .disposable ∈ (compile Q s code filename).2.2 ∧
    (∃ pre : List RtOp, (compile Q s code filename).2.2 =
      pre ++ [RtOp.freeContext .disposable, RtOp.freeRuntime .disposable]) ∧
    ((compile Q s code filename).1.success = false →
      (compile Q s code filename).1.error ≠ "") := by
  unfold compile
  cases hc : Q.compileDisposable code filename with
  | error m =>
    refine ⟨rfl, ?_, by simp, by simp, ?_, ?_⟩
    · intro op hop
      fin_cases hop <;> rfl
    · exact ⟨[RtOp.newRuntime .disposable, RtOp.newContext .disposable,
        RtOp.setModuleLoader .disposable,
        RtOp.evalSrc .disposable filename true], by simp⟩
    · intro _
      exact renderCompileError_ne_empty m
  | ok u =>
    cases hw : Q.writeDisposable code filename with
    | none =>
      refine ⟨rfl, ?_, by simp, by simp, ?_, ?_⟩
      · intro op hop
        fin_cases hop <;> rfl
      · exact ⟨[RtOp.newRuntime .disposable, RtOp.newContext .disposable,
          RtOp.setModuleLoader .disposable,
          RtOp.evalSrc .disposable filename true,
          RtOp.writeObject .disposable], by simp⟩
      · intro _
        show ("Failed to serialize bytecode" : String) ≠ ""
        decide
    | some bytes =>
      refine ⟨rfl, ?_, by simp, by simp, ?_, ?_⟩
      · intro op hop
        fin_cases hop <;> rfl
      · exact ⟨[RtOp.newRuntime .disposable, RtOp.newContext .disposable,
          RtOp.setModuleLoader .disposable,
          RtOp.evalSrc .disposable filename true,
          RtOp.writeObject .disposable], by simp⟩
      · intro hfalse
        have hb : (true : Bool) = false := hfalse
        cases hb

/-- Witness for C7: a concrete successful compilation leaves the initial
state untouched, its first recorded operation is on the disposable runtime,
and it succeeds. -/
theorem c7_compile_isolated_witness :
    (compile trivialQuickJS initialState "1" "a.js").2.1 = initialState ∧
    (RtOp.newRuntime RtTarget.disposable).isShared = false ∧
    (compile trivialQuickJS initialState "1" "a.js").1.success = true := by
  refine ⟨(c7_compile_isolated trivialQuickJS initialState "1" "a.js").1, ?_, rfl⟩
  exact (c7_compile_isolated trivialQuickJS initialState "1" "a.js").2.1
    (RtOp.newRuntime .disposable)
    ((c7_compile_isolated trivialQuickJS initialState "1" "a.js").2.2.1)

/-- C8: the live module-resolution hook tries, in order: the native module
tree (building a definition that exports every function, value, and child
name), then the compiled-module cache (returning the cached handle without
touching the filesystem or the compiler), then the filesystem (appending
`".js"` when the name lacks it), compiling declaration-only and caching the
result; an unopenable file yields the module-not-found error. -/
theorem c8_module_resolution (fs : String → Option String) (Q : QuickJS)
    (s : EngineState) (name : String) (hclean : s.cleanedUp = false) :
    (∀ m : JSModule, findModule s name = some m →
      loadModule fs Q s name =
        ⟨.ok s.nextHandle,
          { s with
              nextHandle := s.nextHandle + 1
              modData := (s.nextHandle, m) :: s.modData
              moduleDefs := (s.nextHandle, ⟨name, exportNames m⟩) ::
                s.moduleDefs },
          RtOp.newCModule .shared name ::
            (exportNames m).map (RtOp.addModuleExport .shared)⟩ ∧
      (∀ n : String, n ∈ exportNames m ↔
        (n ∈ m.funcs.map (fun p => p.1) ∨ n ∈ m.values.map (fun p => p.1) ∨
          n ∈ m.children.map (fun c => c.name)))) ∧
    (∀ h : Nat, findModule s name = none →
      lookupAssoc s.jsModuleCache name = some h →
      loadModule fs Q s name = ⟨.ok h, s, []⟩) ∧
    (findModule s name = none → lookupAssoc s.jsModuleCache name = none →
      fs (if containsJsSubstr name then name else name ++ ".js") = none →
      loadModule fs Q s name =
        ⟨.error (.refError ("module not found: " ++ name)), s,
          [RtOp.readFile (if containsJsSubstr name then name
            else name ++ ".js")]⟩) ∧
    (∀ code : String, findModule s name = none →
      lookupAssoc s.jsModuleCache name = none →
      fs (if containsJsSubstr name then name else name ++ ".js") = some code →
      Q.compileModuleShared code name = .ok () →
      loadModule fs Q s name =
        ⟨.ok s.nextHandle,
          { s with
              nextHandle := s.nextHandle + 1
              jsModuleCache := (name, s.nextHandle) :: s.jsModuleCache },
          [RtOp.readFile (if containsJsSubstr name then name
            else name ++ ".js"),
            RtOp.evalSrc .shared name true]⟩) := by
  refine ⟨?_, ?_, ?_, ?_⟩
  · intro m hfind
    constructor
    · unfold loadModule
      rw [if_neg (by simp [hclean])]
      simp only [hfind]
      rfl
    · intro n
      simp [exportNames, List.mem_append]
  · intro h hfind hcache
    unfold loadModule
    rw [if_neg (by simp [hclean])]
    simp only [hfind, hcache]
  · intro hfind hcache hfs
    unfold loadModule
    rw [if_neg (by simp [hclean])]
    simp only [hfind, hcache, hfs]
  · intro code hfind hcache hfs hcomp
    unfold loadModule
    rw [if_neg (by simp [hclean])]
    simp only [hfind, hcache, hfs, hcomp]

/-- Example registered native module for the witnesses: `graphics` with one
function, one value, and one child module. -/
def exModule : JSModule :=
  .mk "graphics" [.mk "color" [] [] [("WHITE", NativeVal.dbl 1)]]
    [("clear", exW)] [("PI", NativeVal.dbl 3)]

/-- Example live engine state for the witnesses: initialized, with the
`graphics` module registered under the root and a cached script module. -/
def exState : EngineState :=
  { initialState with
      rt := true
      ctx := true
      globalMod := some (.mk "global" [exModule] [] [])
      jsModuleCache := [("util", 7)] }

/-- Example filesystem for the witnesses: exactly one script file
`mod.js`. -/
def exFs : String → Option String :=
  fun p => if p = "mod.js" then some "export let x = 1;" else none

/-- Witness for C8: on the example state, resolving `graphics` builds the
native module definition exporting `clear`, `PI` and `color`; resolving
`util` hits the cache with no operations; resolving `missing` fails with
module-not-found; resolving `mod` reads and compiles `mod.js` and caches the
fresh handle. -/
theorem c8_module_resolution_witness :
    (loadModule (fun _ => none) trivialQuickJS exState "graphics").res =
      .ok exState.nextHandle ∧
    ("clear" ∈ exportNames exModule ∧ "PI" ∈ exportNames exModule ∧
      "color" ∈ exportNames exModule) ∧
    loadModule (fun _ => none) trivialQuickJS exState "util" =
      ⟨.ok 7, exState, []⟩ ∧
    (loadModule (fun _ => none) trivialQuickJS exState "missing").res =
      .error (.refError ("module not found: " ++ "missing")) ∧
    (loadModule exFs trivialQuickJS exState "mod").state.jsModuleCache =
      ("mod", exState.nextHandle) :: exState.jsModuleCache := by
  refine ⟨?_, ⟨by decide, by decide, by decide⟩, ?_, ?_, ?_⟩
  · rw [((c8_module_resolution (fun _ => none) trivialQuickJS exState
      "graphics" rfl).1 exModule rfl).1]
  · exact (c8_module_resolution (fun _ => none) trivialQuickJS exState
      "util" rfl).2.1 7 rfl rfl
  · rw [(c8_module_resolution (fun _ => none) trivialQuickJS exState
      "missing" rfl).2.2.1 rfl rfl rfl]
  · rw [(c8_module_resolution exFs trivialQuickJS exState "mod" rfl).2.2.2
      "export let x = 1;" rfl rfl (by decide) rfl]

/-- C9: executing a precompiled unit on the live engine detects module vs
plain function; for a module it resolves the dependency graph, evaluates,
and copies every export of the module namespace onto the global object
(every exported name becomes reachable), for an arbitrary export list — no
fixed name list; for a plain function it never resolves a module graph and
leaves the global object as the install step left it. -/
theorem c9_run_bytecode (Q : QuickJS) (s : EngineState) (bytes : List Nat)
    (hclean : s.cleanedUp = false) (hctx : s.ctx = true) :
    (∀ exports : List (String × JSValue),
      Q.readObj bytes = .ok (.moduleUnit exports) →
      Q.resolveOk (.moduleUnit exports) = true →
      Q.evalFnRes (.moduleUnit exports) = .ok () →
      (runBytecode Q s bytes).ok = true ∧
      RtOp.resolveModule .shared ∈ (runBytecode Q s bytes).tr ∧
      RtOp.evalFunction .shared ∈ (runBytecode Q s bytes).tr ∧
      (runBytecode Q s bytes).state.globalObj =
        setProps (ensureInstalled s).1.globalObj exports ∧
      (∀ p ∈ exports,
        (lookupAssoc (runBytecode Q s bytes).state.globalObj p.1).isSome =
          true)) ∧
    (Q.readObj bytes = .ok .funcUnit → Q.evalFnRes .funcUnit = .ok () →
      (runBytecode Q s bytes).ok = true ∧
      RtOp.resolveModule .shared ∉ (runBytecode Q s bytes).tr ∧
      (runBytecode Q s bytes).state.globalObj =
        (ensureInstalled s).1.globalObj) := by
  have hguard : ¬ ((s.cleanedUp || !s.ctx) = true) := by simp [hclean, hctx]
  constructor
  · intro exports hread hres heval
    have hrb : runBytecode Q s bytes =
        ⟨true,
          { (ensureInstalled s).1 with
              globalObj := setProps (ensureInstalled s).1.globalObj exports },
          ((ensureInstalled s).2 ++ [RtOp.readObject .shared]) ++
            [RtOp.resolveModule .shared, RtOp.evalFunction .shared,
              RtOp.getModuleNamespace .shared] ++
            (RtOp.getGlobal .shared ::
              exports.map (fun p => RtOp.setProp .shared p.1)),
          []⟩ := by
      unfold runBytecode
      rw [if_neg hguard]
      simp only [hread, hres, heval, Bool.not_true, Bool.false_eq_true,
        if_false, registerModuleExportsToGlobal]
    rw [hrb]
    refine ⟨rfl, by simp, by simp, rfl, ?_⟩
    intro p hp
    exact setProps_covers exports (ensureInstalled s).1.globalObj p hp
  · intro hread heval
    have hrb : runBytecode Q s bytes =
        ⟨true, (ensureInstalled s).1,
          ((ensureInstalled s).2 ++ [RtOp.readObject .shared]) ++
            [RtOp.evalFunction .shared], []⟩ := by
      unfold runBytecode
      rw [if_neg hguard]
      simp only [hread, heval]
    rw [hrb]
    refine ⟨rfl, ?_, rfl⟩
    intro hmem
    rcases List.mem_append.mp hmem with hmem1 | hmem2
    · rcases List.mem_append.mp hmem1 with hmem3 | hmem4
      · have : (ensureInstalled s).2 =
            RtOp.getGlobal .shared ::
              (installToObjectEntries ((ensureInstalled s).1.globalMod.getD
                defaultRootModule)).map (fun p => RtOp.setProp .shared p.1) ∨
            (ensureInstalled s).2 = [] := by
          unfold ensureInstalled
          by_cases hi : s.installed = true
          · rw [if_pos hi]; right; rfl
          · rw [if_neg hi]; left; rfl
        rcases this with heq | heq <;> rw [heq] at hmem3
        · rcases List.mem_cons.mp hmem3 with hfalse | hmap
          · cases hfalse
          · rcases List.mem_map.mp hmap with ⟨p, _, hfalse⟩
            cases hfalse
        · cases hmem3
      · rcases List.mem_cons.mp hmem4 with hfalse | hfalse
        · cases hfalse
        · cases hfalse
    · rcases List.mem_cons.mp hmem2 with hfalse | hfalse
      · cases hfalse
      · cases hfalse

/-- Oracle whose deserializer yields a module exporting one name `f`. -/
def exQuickJS : QuickJS :=
  { trivialQuickJS with
      readObj := fun _ => .ok (.moduleUnit [("f", JSValue.fnVal)]) }

/-- Witness for C9: running bytecode that deserializes to a module with the
single export `f` on a freshly initialized engine succeeds, resolves the
module graph, and makes `f` reachable on the global object. -/
theorem c9_run_bytecode_witness :
    (runBytecode exQuickJS (initializeEngine initialState).1 [0]).ok = true ∧
    (lookupAssoc
        (runBytecode exQuickJS (initializeEngine initialState).1 [0]).state.globalObj
        "f").isSome = true ∧
    RtOp.resolveModule .shared ∈
      (runBytecode exQuickJS (initializeEngine initialState).1 [0]).tr := by
  have h := (c9_run_bytecode exQuickJS (initializeEngine initialState).1 [0]
    rfl rfl).1 [("f", JSValue.fnVal)] rfl rfl rfl
  exact ⟨h.1, h.2.2.2.2 ("f", JSValue.fnVal) (by simp), h.2.1⟩

/-- Witness for C10: the boolean conversion succeeds on a genuine JS
boolean. -/
theorem c10_bool_from_strict_witness :
    (boolFrom (JSValue.bool true)).isSome = true :=
  (c10_bool_from_strict.1 (JSValue.bool true)).mpr ⟨true, rfl⟩
